import Mathlib

/-!
Verification of the trane-transcription command-line tool (src/main.rs).

Rust strings are modelled as lists of characters (`Str`).  The string
operations used by the tool — `str::starts_with`, `str::split(...).join(...)`,
`str::trim_start_matches`, `str::replace` — are embedded below with Rust's
semantics: splitting and replacing act on the leftmost non-overlapping
occurrences of the pattern, and `trim_start_matches` strips the pattern
repeatedly from the front.
-/

/-- Rust strings, modelled as lists of characters. -/
abbrev Str := List Char

/-- The namespace qualifier `trane::transcription::` that `create_course`
checks with `starts_with` and strips with `trim_start_matches`. -/
def nsQualifier : Str := "trane::transcription::".data

/-- The namespace separator `::` used by `split`. -/
def nsSep : Str := "::".data

/-- The filesystem path separator used by `join`. -/
def fsSep : Str := "/".data

/-- Leftmost occurrence of `sep` in `s`: returns the part before the
occurrence and the part after it, or `none` when `sep` does not occur.
This is the elementary step shared by Rust's `split` and `replace`. -/
def splitFirst (sep : Str) : Str → Option (Str × Str)
  | [] => none
  | c :: rest =>
    if sep.isPrefixOf (c :: rest) then some ([], (c :: rest).drop sep.length)
    else
      match splitFirst sep rest with
      | some (pre, post) => some (c :: pre, post)
      | none => none

theorem splitFirst_length {c : Char} {cs : Str} :
    ∀ {s pre post : Str}, splitFirst (c :: cs) s = some (pre, post) →
      post.length < s.length := by
  intro s
  induction s with
  | nil => intro pre post h; simp [splitFirst] at h
  | cons a rest ih =>
    intro pre post h
    rw [splitFirst] at h
    by_cases hp : (c :: cs).isPrefixOf (a :: rest)
    · simp [hp] at h
      obtain ⟨-, h2⟩ := h
      subst h2
      simp [List.length_drop]
      omega
    · simp [hp] at h
      cases hsf : splitFirst (c :: cs) rest with
      | none => rw [hsf] at h; simp at h
      | some pr =>
        rw [hsf] at h
        obtain ⟨pre', post'⟩ := pr
        simp at h
        obtain ⟨-, h2⟩ := h
        subst h2
        have := ih hsf
        simp
        omega

/-- Rust `s.split(sep).collect::<Vec<_>>()` for a non-empty separator
`c :: cs`: the segments of `s` between leftmost non-overlapping occurrences
of the separator.  Splitting the empty string yields `[""]`, as in Rust. -/
def splitOnSep (c : Char) (cs : Str) (s : Str) : List Str :=
  match h : splitFirst (c :: cs) s with
  | none => [s]
  | some (pre, post) => pre :: splitOnSep c cs post
termination_by s.length
decreasing_by exact splitFirst_length h

/-- Rust `s.split(sep)` wrapped for an arbitrary separator string; the
tool only ever splits on the non-empty separators `::` and `/`. -/
def splitOnStr (sep s : Str) : List Str :=
  match sep with
  | [] => [s]
  | c :: cs => splitOnSep c cs s

/-- Rust `s.replace(sep, rep)` for a non-empty pattern `c :: cs`: every
leftmost non-overlapping occurrence of the pattern is replaced by `rep`. -/
def replaceSep (c : Char) (cs : Str) (rep s : Str) : Str :=
  match h : splitFirst (c :: cs) s with
  | none => s
  | some (pre, post) => pre ++ rep ++ replaceSep c cs rep post
termination_by s.length
decreasing_by exact splitFirst_length h

/-- Rust `s.replace(sep, rep)` wrapped for an arbitrary pattern string. -/
def replaceStr (sep rep s : Str) : Str :=
  match sep with
  | [] => s
  | c :: cs => replaceSep c cs rep s

/-- Rust `s.trim_start_matches(pat)` for a non-empty pattern `c :: cs`:
the pattern is stripped from the front repeatedly, as often as it matches. -/
def trimStartSep (c : Char) (cs : Str) (s : Str) : Str :=
  if h : (c :: cs).isPrefixOf s then trimStartSep c cs (s.drop (c :: cs).length)
  else s
termination_by s.length
decreasing_by
  have hpre : (c :: cs) <+: s := by
    exact (List.isPrefixOf_iff_prefix).mp h
  have hlen : (c :: cs).length ≤ s.length := hpre.length_le
  simp [List.length_drop] at *
  omega

/-- Rust `s.trim_start_matches(pat)` wrapped for an arbitrary pattern. -/
def trimStartStr (pat s : Str) : Str :=
  match pat with
  | [] => s
  | c :: cs => trimStartSep c cs s

/-!
Identifier normalization, from `create_course` (src/main.rs lines 27–47).

The Rust code computes the target directory as
`root.join(path)` where `path` joins the `::`-separated segments with `/`,
and the canonical course id by prepending the qualifier when absent.
-/

/-- The relative path string `create_course` joins onto the courses root:
if `id` starts with the qualifier, the qualifier is trimmed first
(`trim_start_matches`), then the string is split on `::` and joined
with `/`. -/
def courseDirStr (id : Str) : Str :=
  if nsQualifier.isPrefixOf id then
    List.intercalate fsSep (splitOnStr nsSep (trimStartStr nsQualifier id))
  else
    List.intercalate fsSep (splitOnStr nsSep id)

/-- The canonical course id `create_course` stores in the manifest: the raw
id when it already starts with the qualifier, otherwise the qualifier
prepended (the Rust `format!("trane::transcription::{id}")`). -/
def courseId (id : Str) : Str :=
  if nsQualifier.isPrefixOf id then id else nsQualifier ++ id

/-!
Data model.  These mirror the external trane library's data types exactly as
this tool consumes them (`TranscriptionLink`, `TranscriptionAsset`,
`TranscriptionPassage`, `TranscriptionConfig`, `CourseGenerator`,
`CourseManifest`); fields the tool never reads or writes are omitted, and
generator variants other than `Transcription` are collapsed into a single
`otherGenerator` constructor, which the tool ignores.
-/

/-- An external link of a transcription asset; the only case today is a
YouTube link holding the link string. -/
inductive TranscriptionLink
  | youTube (link : Str)
deriving DecidableEq

/-- A transcription asset; the `Track` variant carries a short id and an
optional external link. -/
inductive TranscriptionAsset
  | track (short_id : Str) (external_link : Option TranscriptionLink)
deriving DecidableEq

/-- An inlined passage of a transcription course: the asset it describes. -/
structure TranscriptionPassage where
  asset : TranscriptionAsset
deriving DecidableEq

/-- The transcription generator configuration. -/
structure TranscriptionConfig where
  transcription_dependencies : List Str
  passage_directory : Str
  inlined_passages : List TranscriptionPassage
  skip_singing_lessons : Bool
  skip_advanced_lessons : Bool
deriving DecidableEq

/-- A course generator configuration: the `Transcription` variant this tool
produces and inspects, and a stand-in for every other generator kind. -/
inductive CourseGenerator
  | transcription (config : TranscriptionConfig)
  | otherGenerator
deriving DecidableEq

/-- A course manifest, restricted to the fields this tool sets or reads.
Metadata is a key-ordered association list (the Rust `BTreeMap`). -/
structure CourseManifest where
  id : Str
  authors : Option (List Str)
  metadata : Option (List (Str × List Str))
  generator_config : Option CourseGenerator
deriving DecidableEq

/-- The manifest `create_course` builds (src/main.rs lines 48–63): fixed
authors, a single metadata entry, and a transcription generator config with
empty dependencies, empty passage directory, no inlined passages, and both
skip flags false. -/
def buildCourseManifest (course_id : Str) : CourseManifest :=
  { id := course_id
    authors := some ["The Trane Project".data]
    metadata := some [("course_series".data, ["trane_transcription".data])]
    generator_config := some (CourseGenerator.transcription
      { transcription_dependencies := []
        passage_directory := []
        inlined_passages := []
        skip_singing_lessons := false
        skip_advanced_lessons := false }) }

/-!
Filesystem model for the scaffolder.  A path is the canonical list of its
non-empty `/`-separated segments, relative to the current working directory,
which is how the operating system resolves the strings `create_course`
passes to `exists`, `create_dir_all` and `write`.  The filesystem records
the set of existing directories and the manifest files written.
-/

/-- A canonical filesystem path: its non-empty segments. -/
abbrev SegPath := List Str

/-- Canonical segments of a path string: split on `/`, dropping empty
segments, which the operating system ignores when resolving a path. -/
def pathSegs (p : Str) : SegPath :=
  (splitOnStr fsSep p).filter (fun seg => seg ≠ [])

/-- The courses root `create_course` requires: `<cwd>/courses`. -/
def coursesRoot : SegPath := ["courses".data]

/-- The filesystem as the scaffolder sees it. -/
structure FS where
  dirs : List SegPath
  files : List (SegPath × CourseManifest)
deriving DecidableEq

/-- The scaffolding failures `create_course` reports via `bail!`. -/
inductive CourseError
  | missingCoursesRoot
  | courseAlreadyExists
deriving DecidableEq

/-- The file name of the written manifest. -/
def manifestFileName : Str := "course_manifest.json".data

/-- The target directory of `create_course`, as resolved by the operating
system: the courses root followed by the canonical segments of the derived
relative path string (the Rust `root.join(path)`). -/
def courseDir (id : Str) : SegPath :=
  coursesRoot ++ pathSegs (courseDirStr id)

/-- The scaffolder `create_course` (src/main.rs lines 21–86).
Checks the courses root, derives the target directory from the id, fails if
it already exists, builds the manifest, creates the directory recursively
(`create_dir_all`, adding every ancestor), and writes the manifest file.
An error performs no filesystem write: the state is returned only on
success. -/
def create_course (fs : FS) (id : Str) : Except CourseError FS :=
  if coursesRoot ∈ fs.dirs then
    if courseDir id ∈ fs.dirs ∨ courseDir id ∈ fs.files.map Prod.fst then
      .error .courseAlreadyExists
    else
      .ok { dirs := fs.dirs ++ (courseDir id).inits
            files := fs.files ++
              [(courseDir id ++ [manifestFileName],
                buildCourseManifest (courseId id))] }
  else .error .missingCoursesRoot

/-!
Link checking.  The HTTP transport is an oracle mapping a request URL to
either a transport-level failure or a response status code; the tool's
behavior is a pure function of that oracle.
-/

/-- An HTTP oracle: for a URL, either a transport failure (the `ureq` call
returning `Err`) or the final response status code. -/
abbrev HttpOracle := Str → Except Unit Nat

/-- The oembed URL `verify_youtube_link` requests for a link. -/
def oembedUrl (link : Str) : Str :=
  "https://www.youtube.com/oembed?url=".data ++ link ++ "&format=json".data

/-- The two failure shapes of `verify_youtube_link`: the transport error
propagated by `?`, and the `bail!` on a non-200 status.  Callers only ever
observe `is_err`, collapsing both into one "link invalid" outcome. -/
inductive LinkError
  | transportFailure
  | invalidLink
deriving DecidableEq

/-- Rust `Result::is_err`. -/
def Except.isErr : Except ε α → Bool
  | .error _ => true
  | .ok _ => false

/-- The link checker `verify_youtube_link` (src/main.rs lines 97–107):
requests the oembed metadata for the link and fails unless the status
is 200. -/
def verify_youtube_link (http : HttpOracle) (link : Str) : Except LinkError Unit :=
  match http (oembedUrl link) with
  | .error _ => .error .transportFailure
  | .ok status => if status ≠ 200 then .error .invalidLink else .ok ()

/-!
The course library, as the external trane API this tool consumes: the set of
course ids and a manifest lookup by id (`get_course_ids`,
`get_course_manifest`).
-/

/-- The read interface of the external course library. -/
structure Library where
  course_ids : List Str
  manifests : Str → Option CourseManifest

/-- A line the tool prints: the per-invalid-link report line (carrying the
owning course id and the asset's short id), the `verify-links` confirmation
line, and the `verify-courses` confirmation line. -/
inductive OutLine
  | invalidLink (course_id short_id : Str)
  | allLinksValid
  | allCoursesValid
deriving DecidableEq

/-- The passage loop body of `verify_links` (src/main.rs lines 125–148):
for each inlined passage whose `Track` asset carries a YouTube link, check
the link; on failure print a report line and bump the invalid counter. -/
def passageReport (http : HttpOracle) (course_id : Str) :
    List TranscriptionPassage → List OutLine × Nat
  | [] => ([], 0)
  | p :: rest =>
    let tail := passageReport http course_id rest
    match p.asset with
    | .track short_id external_link =>
      match external_link with
      | some (.youTube yt_link) =>
        if (verify_youtube_link http yt_link).isErr then
          (OutLine.invalidLink course_id short_id :: tail.1, tail.2 + 1)
        else tail
      | none => tail

/-- The per-course body of `verify_links` (src/main.rs lines 120–149):
courses without a generator config are skipped, and only the
`Transcription` variant's inlined passages are checked. -/
def courseReport (http : HttpOracle) (course_id : Str) (m : CourseManifest) :
    List OutLine × Nat :=
  match m.generator_config with
  | none => ([], 0)
  | some (.transcription config) =>
    passageReport http course_id config.inlined_passages
  | some .otherGenerator => ([], 0)

/-- The course loop of `verify_links` (src/main.rs lines 116–150):
each course's manifest is looked up and unwrapped — `none` models the
`.unwrap()` panic aborting the run — then its report is accumulated. -/
def verifyLinksLoop (lib : Library) (http : HttpOracle) :
    List Str → Option (List OutLine × Nat)
  | [] => some ([], 0)
  | course_id :: rest =>
    match lib.manifests course_id with
    | none => none
    | some m =>
      let here := courseReport http course_id m
      match verifyLinksLoop lib http rest with
      | none => none
      | some (tailLines, tailCount) =>
        some (here.1 ++ tailLines, here.2 + tailCount)

/-- The `verify_links` command (src/main.rs lines 110–156): the report
lines in course order, followed by the confirmation line exactly when the
invalid counter is zero; `none` models the `.unwrap()` panic on a course id
whose manifest is absent. -/
def verify_links (lib : Library) (http : HttpOracle) : Option (List OutLine) :=
  match verifyLinksLoop lib http lib.course_ids with
  | none => none
  | some (lines, invalid_links) =>
    some (lines ++ if invalid_links = 0 then [OutLine.allLinksValid] else [])

/-!
`verify_courses` and the subcommand dispatcher.  Opening the library
(`Trane::new_local`) is an oracle: either a load failure or the library.
-/

/-- An abstract library-load failure (the error of `Trane::new_local`). -/
inductive LibError
  | loadFailure
deriving DecidableEq

/-- The `verify_courses` command (src/main.rs lines 89–94): opens the
library and propagates its error, returning unit on success. -/
def verify_courses (load : Except LibError Library) : Except LibError Unit :=
  match load with
  | .ok _ => .ok ()
  | .error e => .error e

/-- The world a subcommand runs against: the filesystem, the outcome of
opening the library, and the HTTP transport. -/
structure World where
  fs : FS
  load : Except LibError Library
  http : HttpOracle

/-- An output event: a line on standard output, or the error message
`verify-courses` prints on standard error. -/
inductive OutEvent
  | stdoutLine (l : OutLine)
  | stderrLine (e : LibError)
deriving DecidableEq

/-- An error propagated out of `Subcommands::execute` (and from `main`,
making the process exit nonzero). -/
inductive ExecError
  | courseErr (e : CourseError)
  | libErr (e : LibError)
deriving DecidableEq

/-- The subcommands of the CLI. -/
inductive Subcommands
  | new (id : Str)
  | verifyCourses
  | verifyLinks
deriving DecidableEq

/-- The dispatcher `Subcommands::execute` (src/main.rs lines 187–199):
`new` propagates `create_course` errors; `verify-courses` catches the load
error, printing the confirmation to standard output on success and the
error to standard error on failure, and returns `Ok` either way;
`verify-links` propagates errors.  The result is the propagated outcome,
the printed events, and the resulting filesystem; `none` models a panic. -/
def Subcommands.execute (w : World) :
    Subcommands → Option (Except ExecError Unit × List OutEvent × FS)
  | .new id =>
    match create_course w.fs id with
    | .ok fs2 => some (.ok (), [], fs2)
    | .error e => some (.error (.courseErr e), [], w.fs)
  | .verifyCourses =>
    match verify_courses w.load with
    | .ok _ => some (.ok (), [.stdoutLine .allCoursesValid], w.fs)
    | .error e => some (.ok (), [.stderrLine e], w.fs)
  | .verifyLinks =>
    match w.load with
    | .error e => some (.error (.libErr e), [], w.fs)
    | .ok lib =>
      match verify_links lib w.http with
      | none => none
      | some out => some (.ok (), out.map .stdoutLine, w.fs)

/-- The invalid linked assets among a passage list, as (course id, short
id) pairs in passage order: the `Track` passages carrying a YouTube link
that fails the check.  This is the specification-level enumeration the
report is compared against. -/
def passageInvalidAssets (http : HttpOracle) (course_id : Str)
    (ps : List TranscriptionPassage) : List (Str × Str) :=
  ps.filterMap (fun p =>
    match p.asset with
    | .track short_id (some (.youTube yt_link)) =>
      if (verify_youtube_link http yt_link).isErr then
        some (course_id, short_id)
      else none
    | .track _ none => none)

/-- The invalid linked assets of one course: those of its transcription
config's inlined passages, none for other or absent generator configs. -/
def courseInvalidAssets (http : HttpOracle) (course_id : Str)
    (m : CourseManifest) : List (Str × Str) :=
  match m.generator_config with
  | some (.transcription config) =>
    passageInvalidAssets http course_id config.inlined_passages
  | _ => []

/-- The invalid linked assets of one library course id (none when the
manifest is absent). -/
def libCourseInvalid (lib : Library) (http : HttpOracle) (course_id : Str) :
    List (Str × Str) :=
  match lib.manifests course_id with
  | some m => courseInvalidAssets http course_id m
  | none => []

/-- Every course's invalid linked assets, in course order. -/
def invalidAssets (lib : Library) (http : HttpOracle) : List (Str × Str) :=
  lib.course_ids.flatMap (libCourseInvalid lib http)

/-!
Helper lemmas about the string operations.
-/

theorem splitOnSep_of_none {c : Char} {cs s : Str}
    (h : splitFirst (c :: cs) s = none) : splitOnSep c cs s = [s] := by
  rw [splitOnSep.eq_def]
  split
  · rfl
  · rename_i pre post h2; rw [h] at h2; cases h2

theorem splitOnSep_of_some {c : Char} {cs s pre post : Str}
    (h : splitFirst (c :: cs) s = some (pre, post)) :
    splitOnSep c cs s = pre :: splitOnSep c cs post := by
  rw [splitOnSep.eq_def]
  split
  · rename_i h2; rw [h] at h2; cases h2
  · rename_i pre2 post2 h2
    rw [h] at h2
    injection h2 with h3
    injection h3 with h4 h5
    subst h4; subst h5; rfl

theorem splitOnSep_ne_nil (c : Char) (cs s : Str) : splitOnSep c cs s ≠ [] := by
  rw [splitOnSep.eq_def]
  split <;> simp

theorem replaceSep_of_none {c : Char} {cs rep s : Str}
    (h : splitFirst (c :: cs) s = none) : replaceSep c cs rep s = s := by
  rw [replaceSep.eq_def]
  split
  · rfl
  · rename_i pre post h2; rw [h] at h2; cases h2

theorem replaceSep_of_some {c : Char} {cs rep s pre post : Str}
    (h : splitFirst (c :: cs) s = some (pre, post)) :
    replaceSep c cs rep s = pre ++ rep ++ replaceSep c cs rep post := by
  rw [replaceSep.eq_def]
  split
  · rename_i h2; rw [h] at h2; cases h2
  · rename_i pre2 post2 h2
    rw [h] at h2
    injection h2 with h3
    injection h3 with h4 h5
    subst h4; subst h5; rfl

theorem intercalate_cons_of_ne_nil (sep x : Str) {l : List Str} (h : l ≠ []) :
    List.intercalate sep (x :: l) = x ++ sep ++ List.intercalate sep l := by
  obtain ⟨y, t, rfl⟩ := List.exists_cons_of_ne_nil h
  simp [List.intercalate, List.intersperse]

/-- Joining the segments of a split with `rep` is exactly Rust's
`replace`: both walk the leftmost non-overlapping occurrences. -/
theorem intercalate_splitOnSep (c : Char) (cs rep : Str) (s : Str) :
    List.intercalate rep (splitOnSep c cs s) = replaceSep c cs rep s := by
  cases h : splitFirst (c :: cs) s with
  | none =>
    rw [splitOnSep_of_none h, replaceSep_of_none h]
    simp [List.intercalate, List.intersperse]
  | some pr =>
    obtain ⟨pre, post⟩ := pr
    rw [splitOnSep_of_some h, replaceSep_of_some h]
    rw [intercalate_cons_of_ne_nil _ _ (splitOnSep_ne_nil c cs post)]
    rw [intercalate_splitOnSep c cs rep post]
termination_by s.length
decreasing_by exact splitFirst_length h

theorem trimStartSep_of_not {c : Char} {cs s : Str}
    (h : ¬ (c :: cs).isPrefixOf s) : trimStartSep c cs s = s := by
  rw [trimStartSep.eq_def]
  simp [h]

theorem isPrefixOf_append_self (p t : Str) : p.isPrefixOf (p ++ t) = true := by
  rw [List.isPrefixOf_iff_prefix]
  exact List.prefix_append p t

theorem trimStartSep_append (c : Char) (cs t : Str) :
    trimStartSep c cs ((c :: cs) ++ t) = trimStartSep c cs t := by
  rw [trimStartSep.eq_def]
  simp [isPrefixOf_append_self]

theorem trimStartStr_append (pat t : Str) :
    trimStartStr pat (pat ++ t) = trimStartStr pat t := by
  cases pat with
  | nil => rfl
  | cons c cs => exact trimStartSep_append c cs t

theorem trimStartStr_of_not {pat s : Str} (h : ¬ pat.isPrefixOf s) :
    trimStartStr pat s = s := by
  cases pat with
  | nil => simp [List.isPrefixOf] at h
  | cons c cs => exact trimStartSep_of_not h

/-- Claim C1: for every raw identifier that does not start with
`trane::transcription::`, the canonical identifier is the qualifier
concatenated with the raw string, and the derived relative path is the raw
string with every `::` separator replaced by the path separator `/`. -/
theorem create_course_normalizes_unqualified (id : Str)
    (h : ¬ nsQualifier.isPrefixOf id) :
    courseId id = nsQualifier ++ id ∧
    courseDirStr id = replaceStr nsSep fsSep id := by
  constructor
  · simp [courseId, h]
  · simp only [courseDirStr, h, if_neg, Bool.false_eq_true, ite_false]
    show List.intercalate fsSep (splitOnSep ':' [':'] id) =
      replaceSep ':' [':'] fsSep id
    exact intercalate_splitOnSep ':' [':'] fsSep id

theorem create_course_normalizes_unqualified_witness :
    ¬ nsQualifier.isPrefixOf "jazz::standards".data ∧
    (courseId "jazz::standards".data = nsQualifier ++ "jazz::standards".data ∧
     courseDirStr "jazz::standards".data =
       replaceStr nsSep fsSep "jazz::standards".data) :=
  ⟨by decide, create_course_normalizes_unqualified "jazz::standards".data (by decide)⟩

/-- Claim C2: normalization is idempotent: renormalizing the canonical
identifier produced for any raw identifier yields the same canonical
identifier and the same derived path; an identifier already carrying the
qualifier maps to itself. -/
theorem create_course_normalization_idempotent (id : Str) :
    courseId (courseId id) = courseId id ∧
    courseDirStr (courseId id) = courseDirStr id := by
  by_cases h : nsQualifier.isPrefixOf id
  · constructor <;> simp [courseId, h]
  · have hid : courseId id = nsQualifier ++ id := by simp [courseId, h]
    have hpre := isPrefixOf_append_self nsQualifier id
    constructor
    · rw [hid]; simp [courseId, hpre]
    · rw [hid]
      simp only [courseDirStr, hpre, if_true, if_pos]
      rw [trimStartStr_append, trimStartStr_of_not h]
      simp [courseDirStr, h]

/-- Claim C3: for every canonical identifier, the manifest built by
`create_course` carries it as the id, has the single author
`The Trane Project`, the single metadata entry `course_series ↦
[trane_transcription]`, and a transcription generator config with empty
dependencies, empty passage directory, no inlined passages, and both skip
flags false. -/
theorem buildCourseManifest_fields (course_id : Str) :
    (buildCourseManifest course_id).id = course_id ∧
    (buildCourseManifest course_id).authors = some ["The Trane Project".data] ∧
    (buildCourseManifest course_id).metadata =
      some [("course_series".data, ["trane_transcription".data])] ∧
    (buildCourseManifest course_id).generator_config =
      some (CourseGenerator.transcription
        { transcription_dependencies := []
          passage_directory := []
          inlined_passages := []
          skip_singing_lessons := false
          skip_advanced_lessons := false }) :=
  ⟨rfl, rfl, rfl, rfl⟩

/-- Claim C5: when the courses root directory does not exist,
`create_course` fails with the missing-root error; the error carries no
filesystem, so no write happens on this path. -/
theorem create_course_missing_root (fs : FS) (id : Str)
    (h : coursesRoot ∉ fs.dirs) :
    create_course fs id = .error .missingCoursesRoot := by
  simp [create_course, h]

theorem create_course_missing_root_witness :
    coursesRoot ∉ (FS.mk [] []).dirs ∧
    create_course (FS.mk [] []) "jazz".data = .error .missingCoursesRoot :=
  ⟨by decide, create_course_missing_root (FS.mk [] []) "jazz".data (by decide)⟩

/-- Claim C6: the link check fails exactly when the transport call fails or
the response status is not 200, both observed as the one `is_err` outcome,
and a 200 response yields success. -/
theorem verify_youtube_link_invalid_iff (http : HttpOracle) (link : Str) :
    ((verify_youtube_link http link).isErr = true ↔
      http (oembedUrl link) ≠ .ok 200) ∧
    (http (oembedUrl link) = .ok 200 → verify_youtube_link http link = .ok ()) := by
  cases hres : http (oembedUrl link) with
  | error e => simp [verify_youtube_link, hres, Except.isErr]
  | ok status =>
    by_cases hs : status = 200 <;>
      simp [verify_youtube_link, hres, hs, Except.isErr]

/-- Claim C8: the `verify-courses` subcommand catches the library-load
error: it returns success in both cases, printing the confirmation line to
standard output on success and the error to standard error on failure. -/
theorem execute_verify_courses_catches (w : World) :
    Subcommands.execute w .verifyCourses =
      some (.ok (),
        (match w.load with
          | .ok _ => [OutEvent.stdoutLine OutLine.allCoursesValid]
          | .error e => [OutEvent.stderrLine e]),
        w.fs) := by
  cases hl : w.load <;> simp [Subcommands.execute, verify_courses, hl]

/-- Claim C4: a second run of `create_course` with the same identifier
after a successful run fails with the already-exists error: the first run
created the target directory, so the existence check refuses to overwrite
it.  Re-running is never silently successful. -/
theorem create_course_rerun_fails (fs : FS) (id : Str) (fs2 : FS)
    (h : create_course fs id = .ok fs2) :
    create_course fs2 id = .error .courseAlreadyExists := by
  unfold create_course at h
  by_cases h1 : coursesRoot ∈ fs.dirs
  · rw [if_pos h1] at h
    by_cases h2 : courseDir id ∈ fs.dirs ∨ courseDir id ∈ fs.files.map Prod.fst
    · rw [if_pos h2] at h
      exact Except.noConfusion h
    · rw [if_neg h2] at h
      have hfs2 := (Except.ok.inj h).symm
      have hdirs : fs2.dirs = fs.dirs ++ (courseDir id).inits := by
        rw [hfs2]
      have hroot : coursesRoot ∈ fs2.dirs := by
        rw [hdirs]; exact List.mem_append_left _ h1
      have hdir : courseDir id ∈ fs2.dirs := by
        rw [hdirs]
        exact List.mem_append_right _
          ((List.mem_inits _ _).mpr (List.prefix_refl _))
      unfold create_course
      rw [if_pos hroot, if_pos (Or.inl hdir)]
  · rw [if_neg h1] at h
    exact Except.noConfusion h

theorem create_course_rerun_fails_witness :
    create_course
      (FS.mk ([coursesRoot] ++ (courseDir "jazz".data).inits)
        ([(courseDir "jazz".data ++ [manifestFileName],
           buildCourseManifest (courseId "jazz".data))]))
      "jazz".data = .error .courseAlreadyExists := by
  have hdir : courseDir "jazz".data = ["courses".data, "jazz".data] := by
    have hq : ¬ nsQualifier.isPrefixOf "jazz".data := by decide
    have h1 : splitOnStr nsSep "jazz".data = ["jazz".data] :=
      splitOnSep_of_none (by decide)
    have h2 : courseDirStr "jazz".data = "jazz".data := by
      unfold courseDirStr
      rw [if_neg hq, h1]
      rfl
    have h3 : splitOnStr fsSep "jazz".data = ["jazz".data] :=
      splitOnSep_of_none (by decide)
    unfold courseDir pathSegs
    rw [h2, h3]
    rfl
  refine create_course_rerun_fails (FS.mk [coursesRoot] []) "jazz".data _ ?_
  unfold create_course
  rw [if_pos (by decide), if_neg (by rw [hdir]; decide)]
  rfl

/-- Claim C10: for the empty identifier, and for the identifier equal to
the bare qualifier `trane::transcription::`, the derived target directory
is the courses root itself; hence whenever the root exists (as
`create_course` just checked), the run fails with the already-exists error
and writes nothing — no dedicated validation rejects these identifiers. -/
theorem create_course_degenerate_ids (fs : FS) (h : coursesRoot ∈ fs.dirs) :
    courseDir [] = coursesRoot ∧
    courseDir nsQualifier = coursesRoot ∧
    create_course fs [] = .error .courseAlreadyExists ∧
    create_course fs nsQualifier = .error .courseAlreadyExists := by
  have hsplitNS : splitOnStr nsSep ([] : Str) = [[]] :=
    splitOnSep_of_none (by decide)
  have hsplitFS : splitOnStr fsSep ([] : Str) = [[]] :=
    splitOnSep_of_none (by decide)
  have hsegs : pathSegs ([] : Str) = [] := by
    unfold pathSegs
    rw [hsplitFS]
    rfl
  have hempty : courseDir [] = coursesRoot := by
    have hq : ¬ nsQualifier.isPrefixOf ([] : Str) := by decide
    have h2 : courseDirStr [] = [] := by
      unfold courseDirStr
      rw [if_neg hq, hsplitNS]
      rfl
    unfold courseDir
    rw [h2, hsegs, List.append_nil]
  have hqual : courseDir nsQualifier = coursesRoot := by
    have hpre : nsQualifier.isPrefixOf nsQualifier := by decide
    have htrim : trimStartStr nsQualifier nsQualifier = [] := by
      have h5 := trimStartStr_append nsQualifier []
      rw [List.append_nil] at h5
      rw [h5, trimStartStr_of_not (by decide)]
    have h2 : courseDirStr nsQualifier = [] := by
      unfold courseDirStr
      rw [if_pos hpre, htrim, hsplitNS]
      rfl
    unfold courseDir
    rw [h2, hsegs, List.append_nil]
  refine ⟨hempty, hqual, ?_, ?_⟩
  · unfold create_course
    rw [if_pos h, if_pos (Or.inl (by rw [hempty]; exact h))]
  · unfold create_course
    rw [if_pos h, if_pos (Or.inl (by rw [hqual]; exact h))]

theorem create_course_degenerate_ids_witness :
    coursesRoot ∈ (FS.mk [coursesRoot] []).dirs ∧
    (courseDir [] = coursesRoot ∧
     courseDir nsQualifier = coursesRoot ∧
     create_course (FS.mk [coursesRoot] []) [] = .error .courseAlreadyExists ∧
     create_course (FS.mk [coursesRoot] []) nsQualifier =
       .error .courseAlreadyExists) :=
  ⟨by decide, create_course_degenerate_ids (FS.mk [coursesRoot] []) (by decide)⟩

theorem verifyLinksLoop_isSome (lib : Library) (http : HttpOracle) :
    ∀ ids : List Str, (verifyLinksLoop lib http ids).isSome = true ↔
      ∀ cid ∈ ids, (lib.manifests cid).isSome = true := by
  intro ids
  induction ids with
  | nil => simp [verifyLinksLoop]
  | cons cid rest ih =>
    cases hm : lib.manifests cid with
    | none =>
      simp [verifyLinksLoop, hm]
    | some m =>
      cases hl : verifyLinksLoop lib http rest with
      | none =>
        rw [hl] at ih
        simp at ih
        simp [verifyLinksLoop, hm, hl]
        exact ih
      | some pr =>
        obtain ⟨ls, n⟩ := pr
        rw [hl] at ih
        simp at ih
        simp [verifyLinksLoop, hm, hl]
        exact ih

/-- Claim C9: the manifest unwrap in `verify_links` is safe exactly under
the invariant that every course id returned by the library has a manifest:
the run completes (is not a panic) if and only if every listed course id's
manifest lookup succeeds; any absent manifest aborts the run rather than
being handled. -/
theorem verify_links_unwrap_iff (lib : Library) (http : HttpOracle) :
    (verify_links lib http).isSome = true ↔
      ∀ cid ∈ lib.course_ids, (lib.manifests cid).isSome = true := by
  have hloop := verifyLinksLoop_isSome lib http lib.course_ids
  unfold verify_links
  cases hl : verifyLinksLoop lib http lib.course_ids with
  | none =>
    rw [hl] at hloop
    simp at hloop
    simpa using hloop
  | some pr =>
    obtain ⟨ls, n⟩ := pr
    rw [hl] at hloop
    simp at hloop
    simpa using hloop

theorem passageReport_spec (http : HttpOracle) (cid : Str) :
    ∀ ps : List TranscriptionPassage,
      passageReport http cid ps =
        ((passageInvalidAssets http cid ps).map
          (fun a => OutLine.invalidLink a.1 a.2),
         (passageInvalidAssets http cid ps).length) := by
  intro ps
  induction ps with
  | nil => rfl
  | cons p rest ih =>
    obtain ⟨asset⟩ := p
    cases asset with
    | track sid ext =>
      cases ext with
      | none =>
        simp [passageReport, passageInvalidAssets, List.filterMap_cons] at ih ⊢
        exact ih
      | some link =>
        cases link with
        | youTube yt =>
          by_cases hv : (verify_youtube_link http yt).isErr = true
          · simp [passageReport, passageInvalidAssets, List.filterMap_cons,
              hv, ih]
          · simp [passageReport, passageInvalidAssets, List.filterMap_cons,
              hv] at ih ⊢
            exact ih

theorem courseReport_spec (http : HttpOracle) (cid : Str) (m : CourseManifest) :
    courseReport http cid m =
      ((courseInvalidAssets http cid m).map
        (fun a => OutLine.invalidLink a.1 a.2),
       (courseInvalidAssets http cid m).length) := by
  cases hg : m.generator_config with
  | none => simp [courseReport, courseInvalidAssets, hg]
  | some g =>
    cases g with
    | transcription config =>
      simp [courseReport, courseInvalidAssets, hg, passageReport_spec]
    | otherGenerator => simp [courseReport, courseInvalidAssets, hg]

theorem verifyLinksLoop_spec (lib : Library) (http : HttpOracle) :
    ∀ ids : List Str, (∀ cid ∈ ids, (lib.manifests cid).isSome = true) →
      verifyLinksLoop lib http ids =
        some ((ids.flatMap (libCourseInvalid lib http)).map
                (fun a => OutLine.invalidLink a.1 a.2),
              (ids.flatMap (libCourseInvalid lib http)).length) := by
  intro ids
  induction ids with
  | nil => intro h; rfl
  | cons cid rest ih =>
    intro h
    have hm : (lib.manifests cid).isSome = true := h cid (by simp)
    obtain ⟨m, hm2⟩ := Option.isSome_iff_exists.mp hm
    have ih2 := ih (fun c hc => h c (List.mem_cons_of_mem _ hc))
    simp only [verifyLinksLoop, hm2, ih2, courseReport_spec,
      List.flatMap_cons, List.map_append, List.length_append]
    simp [libCourseInvalid, hm2]

/-- Claim C7: when every listed course has a manifest, `verify_links`
completes and prints exactly one line per invalid linked asset — naming the
owning course id and the asset's short id, in traversal order over every
course's every linked `Track` passage — followed by the single confirmation
line exactly when the invalid count is zero; an invalid link never aborts
the run. -/
theorem verify_links_report (lib : Library) (http : HttpOracle)
    (h : ∀ cid ∈ lib.course_ids, (lib.manifests cid).isSome = true) :
    verify_links lib http =
      some ((invalidAssets lib http).map (fun a => OutLine.invalidLink a.1 a.2)
        ++ if invalidAssets lib http = [] then [OutLine.allLinksValid] else []) ∧
    (OutLine.allLinksValid ∈
        (invalidAssets lib http).map (fun a => OutLine.invalidLink a.1 a.2)
          ++ (if invalidAssets lib http = [] then [OutLine.allLinksValid] else [])
      ↔ invalidAssets lib http = []) := by
  have hloop := verifyLinksLoop_spec lib http lib.course_ids h
  constructor
  · unfold verify_links
    rw [hloop]
    dsimp only
    unfold invalidAssets
    by_cases he : lib.course_ids.flatMap (libCourseInvalid lib http) = []
    · simp [he]
    · have hne : ¬ (lib.course_ids.flatMap (libCourseInvalid lib http)).length = 0 := by
        rw [List.length_eq_zero]
        exact he
      rw [if_neg hne, if_neg he]
  · by_cases he : invalidAssets lib http = []
    · simp [he]
    · simp [he]

/-- A sample library for exercising `verify_links`: one course whose
transcription config holds a single `Track` passage with a YouTube link. -/
def sampleManifest : CourseManifest :=
  { id := "trane::transcription::c1".data
    authors := none
    metadata := none
    generator_config := some (.transcription
      { transcription_dependencies := []
        passage_directory := []
        inlined_passages := [⟨.track "t1".data (some (.youTube "yt".data))⟩]
        skip_singing_lessons := false
        skip_advanced_lessons := false }) }

/-- A sample library holding only the sample course. -/
def sampleLibrary : Library :=
  { course_ids := ["c1".data]
    manifests := fun cid => if cid = "c1".data then some sampleManifest else none }

/-- A sample transport whose every response is a 404 status. -/
def sampleHttp : HttpOracle := fun _ => .ok 404

theorem verify_links_report_witness :
    (∀ cid ∈ sampleLibrary.course_ids,
      (sampleLibrary.manifests cid).isSome = true) ∧
    (verify_links sampleLibrary sampleHttp =
      some ((invalidAssets sampleLibrary sampleHttp).map
          (fun a => OutLine.invalidLink a.1 a.2)
        ++ if invalidAssets sampleLibrary sampleHttp = [] then
            [OutLine.allLinksValid] else []) ∧
     (OutLine.allLinksValid ∈
        (invalidAssets sampleLibrary sampleHttp).map
            (fun a => OutLine.invalidLink a.1 a.2)
          ++ (if invalidAssets sampleLibrary sampleHttp = [] then
              [OutLine.allLinksValid] else [])
      ↔ invalidAssets sampleLibrary sampleHttp = [])) :=
  ⟨by decide, verify_links_report sampleLibrary sampleHttp (by decide)⟩
